import Mathlib

/-!
Verification of the talon observability agent (plugins/talon) against its
natural-language specification.  The development shallowly embeds the two
core source files:

* `src/bin/talon-agent/map.rs` — the frame mapper (`from_tap_frame`,
  `as_u32_sat`, `read_latest_assistant_message`, `enrich_from_transcript`,
  `normalize_event`);
* `src/bin/talon-agent/main.rs` — the egress machinery (`send_batch` retry
  loop, `flush_spool`, `rotate_spool_file`).

JSON values are modelled by an inductive `Json` mirroring
`serde_json::Value`; machine integers are `Nat`/`Int` with explicit
saturation or wrapping where the source has it.  File I/O and the HTTP
transport are modelled as explicit function parameters (a file system
`String → Option (List String)` giving the lines of a readable file, a
line parser `String → Option Json` standing for `serde_json::from_str`,
and a response oracle for the collector), so every definition stays
executable.  Floating-point fields of the record (`temperature`, `top_p`,
cost fields) are outside every claim and are not modelled.
-/

namespace Talon

/-- Json mirrors `serde_json::Value`: null, booleans, numbers, strings,
arrays an object represented as an association list of string keys (the
serde map has unique keys; lookup takes the first binding, insertion
replaces it in place). Numbers carry an unbounded `Int`; the accessors
below apply the same range checks as `Number::as_u64` / `as_i64`. -/
inductive Json where
  | null : Json
  | bool (b : Bool) : Json
  | num (n : Int) : Json
  | str (s : String) : Json
  | arr (xs : List Json) : Json
  | obj (fields : List (String × Json)) : Json

/-- Largest value of the Rust type `u32`. -/
def u32Max : Nat := 4294967295

/-- Largest value of the Rust type `u64`. -/
def u64Max : Nat := 18446744073709551615

/-- Largest value of the Rust type `i64`. -/
def i64Max : Int := 9223372036854775807

/-- Smallest value of the Rust type `i64`. -/
def i64Min : Int := -9223372036854775808

/-- Lookup of a key in an object, as `Value::get`: `None` on any
non-object value, first matching binding otherwise. -/
def Json.get (j : Json) (k : String) : Option Json :=
  match j with
  | .obj fields => List.lookup k fields
  | _ => none

/-- Replacement of the binding of `k` (appending when absent), as
`Map::insert` of `serde_json`. -/
def insertField : List (String × Json) → String → Json → List (String × Json)
  | [], k, v => [(k, v)]
  | (k₀, v₀) :: rest, k, v =>
    if k₀ = k then (k, v) :: rest else (k₀, v₀) :: insertField rest k v

/-- Insertion into an object; on a non-object value this is a no-op,
matching the Rust pattern `if let Some(obj) = payload.as_object_mut()`
which skips the insertion when the value is not an object. -/
def Json.insert (j : Json) (k : String) (v : Json) : Json :=
  match j with
  | .obj fields => .obj (insertField fields k v)
  | _ => j

/-- Accessor mirroring `Value::as_u64`: defined exactly on integer numbers
in `[0, u64::MAX]`. -/
def Json.as_u64 : Json → Option Nat
  | .num n => if 0 ≤ n ∧ n ≤ (u64Max : Int) then some n.toNat else none
  | _ => none

/-- Accessor mirroring `Value::as_i64`: defined exactly on integer numbers
in `[i64::MIN, i64::MAX]`. -/
def Json.as_i64 : Json → Option Int
  | .num n => if i64Min ≤ n ∧ n ≤ i64Max then some n else none
  | _ => none

/-- Accessor mirroring `Value::as_str`. -/
def Json.as_str : Json → Option String
  | .str s => some s
  | _ => none

/-- Accessor mirroring `Value::as_bool`. -/
def Json.as_bool : Json → Option Bool
  | .bool b => some b
  | _ => none

/-- Embedding of `as_u32_sat` (map.rs): `v.as_u64().unwrap_or(0).min(u32::MAX as u64) as u32`.
The final `as u32` cast is lossless because the value is already at most
`u32::MAX`. -/
def as_u32_sat (v : Json) : Nat :=
  min (v.as_u64.getD 0) u32Max

/-- Embedding of the Rust cast `i64value as u32`, which truncates to the
low 32 bits (mathematically: reduction modulo `2^32`). -/
def i64_as_u32 (n : Int) : Nat :=
  (n % 4294967296).toNat

/-- Embedding of `normalize_event` (map.rs): canonical event names. -/
def normalize_event (e : String) : String :=
  if e = "PostToolUse" ∨ e = "tool.post" then "tool.post"
  else if e = "ModelEnd" ∨ e = "model.end" then "model.end"
  else if e = "SessionStart" ∨ e = "session.start" then "session.start"
  else if e = "SessionEnd" ∨ e = "session.end" then "session.end"
  else "unknown"

/-- Identifier block of a TraceV1 record (spec section 3). -/
structure Ids where
  trace_id : String := ""
  session_id : String := ""
  conversation_id : String := ""
deriving Repr, DecidableEq

/-- Context block of a TraceV1 record. `pid` is a Rust `u32`, modelled as
a `Nat` kept at most `u32Max` by the extraction. -/
structure TContext where
  plugin : String := ""
  plugin_version : String := ""
  host : String := ""
  pid : Nat := 0
deriving Repr, DecidableEq

/-- Configuration block of a TraceV1 record. The floating-point fields
`temperature` and `top_p` take part in no claim and are not modelled. -/
structure TConfiguration where
  model : String := ""
  top_k : Nat := 0
  max_tokens : Nat := 0
deriving Repr, DecidableEq

/-- Tool block inside the inputs of a TraceV1 record. The default for the
`args` field is `Value::Null`, as for `serde_json::Value`. -/
structure TTool where
  name : String := ""
  version : String := ""
  args : Json := .null

/-- Inputs block of a TraceV1 record (message and retrieval lists take
part in no claim and are not modelled). -/
structure TInputs where
  tool : TTool := {}

/-- Outputs block of a TraceV1 record. Token fields are Rust `u32`. -/
structure TOutputs where
  assistant_text : String := ""
  finish_reason : String := ""
  input_tokens : Nat := 0
  output_tokens : Nat := 0
  total_tokens : Nat := 0
  tokens_estimated : Bool := false
deriving Repr, DecidableEq

/-- Latency sub-block of the metrics. -/
structure TLatency where
  first_token : Nat := 0
  provider : Nat := 0
  total : Nat := 0
deriving Repr, DecidableEq

/-- Metrics block of a TraceV1 record (cost fields are floating point and
take part in no claim). -/
structure TMetrics where
  prompt_tokens : Nat := 0
  completion_tokens : Nat := 0
  total_tokens : Nat := 0
  token_counts_estimated : Bool := false
  latency_ms : TLatency := {}
  latency_estimated : Bool := false
deriving Repr, DecidableEq

/-- Canonical trace record (spec section 3, `TraceV1` of schema.rs). -/
structure TraceV1 where
  event : String := ""
  timestamp : String := ""
  ids : Ids := {}
  context : TContext := {}
  configuration : TConfiguration := {}
  inputs : TInputs := {}
  outputs : TOutputs := {}
  metrics : TMetrics := {}
  extensions : Json := .obj []

/-- Predicate for the fast-path dispatch of `from_tap_frame`: both
`schema_version` and `ids` keys are present. -/
def fastPathApplies (v : Json) : Bool :=
  (v.get "schema_version").isSome && (v.get "ids").isSome

/-- Qualification test used by `read_latest_assistant_message`: the entry
has `type == "assistant"` and a `message` carrying a `usage` key. -/
def isAssistantWithUsage (entry : Json) : Bool :=
  ((entry.get "type").bind Json.as_str == some "assistant")
  && (match entry.get "message" with
      | some msg => (msg.get "usage").isSome
      | none => false)

/-- Embedding of `read_latest_assistant_message` (map.rs). The file
system is the parameter `fs` (path to lines of a readable file, `none`
when the file cannot be opened; tilde expansion is folded into `fs`), and
`parse` stands for `serde_json::from_str`. The fold keeps the latest
qualifying line, skipping unparseable lines. -/
def read_latest_assistant_message (fs : String → Option (List String))
    (parse : String → Option Json) (path : String) : Option Json :=
  match fs path with
  | none => none
  | some lines =>
    lines.foldl (fun latest line =>
      match parse line with
      | some entry => if isAssistantWithUsage entry then some entry else latest
      | none => latest) none

/-- Model step of `enrich_from_transcript` (map.rs lines 120-125):
`model` copied from the message when present. -/
def enrichModel (payload msg : Json) : Json :=
  match msg.get "model" with
  | some model => payload.insert "model" model
  | none => payload

/-- Aggregated usage object built by `enrich_from_transcript` (map.rs
lines 128-151) from the four token fields of the message usage, missing
fields counting as 0. Token sums are computed in Rust `u64` arithmetic,
hence reduced modulo `2^64`. -/
def aggregatedUsage (usage : Json) : Json :=
  let input_tokens := ((usage.get "input_tokens").bind Json.as_u64).getD 0
  let cache_creation := ((usage.get "cache_creation_input_tokens").bind Json.as_u64).getD 0
  let cache_read := ((usage.get "cache_read_input_tokens").bind Json.as_u64).getD 0
  let output_tokens := ((usage.get "output_tokens").bind Json.as_u64).getD 0
  .obj
    [("prompt_tokens", .num (((input_tokens + cache_creation + cache_read) % (u64Max + 1) : Nat) : Int)),
     ("completion_tokens", .num (output_tokens : Int)),
     ("total_tokens", .num (((input_tokens + cache_creation + cache_read + output_tokens) % (u64Max + 1) : Nat) : Int)),
     ("token_counts_estimated", .bool false)]

/-- Usage step of `enrich_from_transcript`: the payload usage is replaced
by the aggregate when the message carries one. -/
def enrichUsage (payload msg : Json) : Json :=
  match msg.get "usage" with
  | some usage => payload.insert "usage" (aggregatedUsage usage)
  | none => payload

/-- Finish-reason step of `enrich_from_transcript` (map.rs lines 158-163). -/
def enrichFinish (payload msg : Json) : Json :=
  match msg.get "stop_reason" with
  | some stop_reason => payload.insert "finish_reason" stop_reason
  | none => payload

/-- Timestamp step of `enrich_from_transcript` (map.rs lines 165-171):
the enrichment timestamp is stored only when the payload lacks one. -/
def enrichTimestamp (payload latest_msg : Json) : Json :=
  if (payload.get "timestamp").isNone then
    match latest_msg.get "timestamp" with
    | some timestamp => payload.insert "timestamp" timestamp
    | none => payload
  else payload

/-- Embedding of `enrich_from_transcript` (map.rs): functional version of
the in-place mutation of `payload`, applying the four enrichment steps in
source order; a message-less entry leaves the payload untouched. -/
def enrich_from_transcript (payload : Json) (latest_msg : Json) : Json :=
  match latest_msg.get "message" with
  | none => payload
  | some msg =>
    enrichTimestamp (enrichFinish (enrichUsage (enrichModel payload msg) msg) msg) latest_msg

/-- Payload of a legacy tap frame: the `payload` key, defaulting to the
empty object (map.rs line 213). -/
def tapPayload (v : Json) : Json :=
  (v.get "payload").getD (.obj [])

/-- Latest transcript message referenced by a legacy frame, when its
payload names a `transcript_path` (map.rs line 222). -/
def tapLatestMsg (fs : String → Option (List String)) (parse : String → Option Json)
    (v : Json) : Option Json :=
  match ((tapPayload v).get "transcript_path").bind Json.as_str with
  | some transcript_path => read_latest_assistant_message fs parse transcript_path
  | none => none

/-- Payload after the optional transcript enrichment (map.rs lines 222-230). -/
def enrichedPayload (fs : String → Option (List String)) (parse : String → Option Json)
    (v : Json) : Json :=
  match tapLatestMsg fs parse v with
  | some m => enrich_from_transcript (tapPayload v) m
  | none => tapPayload v

/-- Frame-level timestamp string of a legacy frame (`ts` key, map.rs line 204). -/
def tapTs (v : Json) : String :=
  ((v.get "ts").bind Json.as_str).getD ""

/-- Embedding of the legacy branch of `from_tap_frame` (map.rs lines
198-376): field extraction with zero-valued defaults, the timestamp
cascade, usage duplication into metrics and outputs, and the preservation
of the raw payload under `extensions["tap.raw"]`. -/
def legacyRecord (fs : String → Option (List String)) (parse : String → Option Json)
    (v : Json) : TraceV1 :=
  let event := ((v.get "event").bind Json.as_str).getD "unknown"
  let ts := tapTs v
  let env := (v.get "env").getD (.obj [])
  let raw_payload_for_audit := tapPayload v
  let latest_msg := tapLatestMsg fs parse v
  let payload := enrichedPayload fs parse v
  let timestamp :=
    if ts ≠ "" then ts
    else ((payload.get "timestamp").bind Json.as_str).getD ""
  let base : TraceV1 :=
    { event := normalize_event event
      timestamp := timestamp
      ids :=
        { session_id := ((env.get "session_id").bind Json.as_str).getD ""
          conversation_id :=
            match latest_msg with
            | some msg => (((msg.get "message").bind (fun m => m.get "id")).bind Json.as_str).getD ""
            | none => "" }
      context :=
        { plugin := ((v.get "plugin").bind Json.as_str).getD "beak"
          plugin_version := ((v.get "version").bind Json.as_str).getD ""
          host := ((env.get "host").bind Json.as_str).getD ""
          pid :=
            match env.get "pid" with
            | some pid => as_u32_sat pid
            | none => 0 }
      configuration :=
        { model := ((payload.get "model").bind Json.as_str).getD ""
          top_k := (((payload.get "top_k").bind Json.as_i64).map i64_as_u32).getD 0
          max_tokens := (((payload.get "max_tokens").bind Json.as_i64).map i64_as_u32).getD 0 }
      inputs :=
        { tool :=
          { name := ((payload.get "tool_name").bind Json.as_str).getD ""
            version := ((payload.get "tool_version").bind Json.as_str).getD ""
            args := (payload.get "tool_input").getD .null } }
      outputs :=
        { assistant_text := ((payload.get "tool_response").bind Json.as_str).getD ""
          finish_reason := ((payload.get "finish_reason").bind Json.as_str).getD "" } }
  let t :=
    match payload.get "usage" with
    | some u =>
      let prompt_tokens := ((u.get "prompt_tokens").map as_u32_sat).getD 0
      let completion_tokens := ((u.get "completion_tokens").map as_u32_sat).getD 0
      let total_tokens := ((u.get "total_tokens").map as_u32_sat).getD 0
      let tokens_estimated := ((u.get "token_counts_estimated").bind Json.as_bool).getD false
      { base with
        metrics :=
          { base.metrics with
            prompt_tokens := prompt_tokens
            completion_tokens := completion_tokens
            total_tokens := total_tokens
            token_counts_estimated := tokens_estimated }
        outputs :=
          { base.outputs with
            input_tokens := prompt_tokens
            output_tokens := completion_tokens
            total_tokens := total_tokens
            tokens_estimated := tokens_estimated } }
    | none => base
  let t :=
    match payload.get "latency_ms" with
    | some l =>
      { t with
        metrics :=
          { t.metrics with
            latency_ms :=
              { first_token := ((l.get "first_token").map as_u32_sat).getD 0
                provider := ((l.get "provider").map as_u32_sat).getD 0
                total := ((l.get "total").map as_u32_sat).getD 0 } } }
    | none => t
  let latency_estimated :=
    match (payload.get "latency_estimated").bind Json.as_bool with
    | some b => b
    | none =>
      (((payload.get "latency_ms").bind (fun l => l.get "latency_estimated")).bind Json.as_bool).getD false
  { t with
    metrics := { t.metrics with latency_estimated := latency_estimated }
    extensions := .obj [("tap.raw", raw_payload_for_audit)] }

/-- Helper for the spec-modelled fast path: a string field of the
canonical shape, defaulting to the empty string when absent and rejecting
a present non-string value. -/
def getStrField (v : Json) (k : String) : Option String :=
  match v.get k with
  | none => some ""
  | some j => j.as_str

/-- Helper for the spec-modelled fast path: an unsigned 32-bit field,
defaulting to 0 when absent and rejecting out-of-range or non-integer
values. -/
def getU32Field (v : Json) (k : String) : Option Nat :=
  match v.get k with
  | none => some 0
  | some j =>
    match j.as_u64 with
    | some n => if n ≤ u32Max then some n else none
    | none => none

/-- Helper for the spec-modelled fast path: a boolean field, defaulting
to `false`. -/
def getBoolField (v : Json) (k : String) : Option Bool :=
  match v.get k with
  | none => some false
  | some j => j.as_bool

/-- Helper for the spec-modelled fast path: the identifier block, which
must be an object of string fields. -/
def parseIds (j : Json) : Option Ids :=
  match j with
  | .obj _ =>
    (getStrField j "trace_id").bind fun trace_id =>
    (getStrField j "session_id").bind fun session_id =>
    (getStrField j "conversation_id").map fun conversation_id =>
    { trace_id := trace_id, session_id := session_id,
      conversation_id := conversation_id }
  | _ => none

/-- Helper for the spec-modelled fast path: the context block. -/
def parseContextJ (j : Json) : Option TContext :=
  (getStrField j "plugin").bind fun plugin =>
  (getStrField j "plugin_version").bind fun plugin_version =>
  (getStrField j "host").bind fun host =>
  (getU32Field j "pid").map fun pid =>
  { plugin := plugin, plugin_version := plugin_version, host := host, pid := pid }

/-- Helper for the spec-modelled fast path: the configuration block. -/
def parseConfigurationJ (j : Json) : Option TConfiguration :=
  (getStrField j "model").bind fun model =>
  (getU32Field j "top_k").bind fun top_k =>
  (getU32Field j "max_tokens").map fun max_tokens =>
  { model := model, top_k := top_k, max_tokens := max_tokens }

/-- Helper for the spec-modelled fast path: the outputs block. -/
def parseOutputsJ (j : Json) : Option TOutputs :=
  (getStrField j "assistant_text").bind fun assistant_text =>
  (getStrField j "finish_reason").bind fun finish_reason =>
  (getU32Field j "input_tokens").bind fun input_tokens =>
  (getU32Field j "output_tokens").bind fun output_tokens =>
  (getU32Field j "total_tokens").bind fun total_tokens =>
  (getBoolField j "tokens_estimated").map fun tokens_estimated =>
  { assistant_text := assistant_text, finish_reason := finish_reason,
    input_tokens := input_tokens, output_tokens := output_tokens,
    total_tokens := total_tokens, tokens_estimated := tokens_estimated }

/-- Helper for the spec-modelled fast path: the metrics block with its
nested latency object. -/
def parseMetricsJ (j : Json) : Option TMetrics :=
  (getU32Field j "prompt_tokens").bind fun prompt_tokens =>
  (getU32Field j "completion_tokens").bind fun completion_tokens =>
  (getU32Field j "total_tokens").bind fun total_tokens =>
  (getBoolField j "token_counts_estimated").bind fun token_counts_estimated =>
  (let latJson := (j.get "latency_ms").getD (.obj [])
   (getU32Field latJson "first_token").bind fun first_token =>
   (getU32Field latJson "provider").bind fun provider =>
   (getU32Field latJson "total").map fun total =>
   ({ first_token := first_token, provider := provider, total := total } : TLatency)).bind
    fun latency_ms =>
  (getBoolField j "latency_estimated").map fun latency_estimated =>
  { prompt_tokens := prompt_tokens, completion_tokens := completion_tokens,
    total_tokens := total_tokens, token_counts_estimated := token_counts_estimated,
    latency_ms := latency_ms, latency_estimated := latency_estimated }

/-- Helper for the spec-modelled fast path: the extensions of the emitted
record. Absent extensions default to the empty object, a present
non-object is a structural error (spec section 3: an arbitrary JSON
object), and `tap.raw` is set to the whole frame (spec section 8: the
fast path stores the payload or the frame, implementation may choose; the
model realizes the choice as the frame). -/
def parseExtensions (v : Json) : Option Json :=
  match v.get "extensions" with
  | none => some ((Json.obj []).insert "tap.raw" v)
  | some (.obj fields) => some ((Json.obj fields).insert "tap.raw" v)
  | some _ => none

/-- Modelled from the spec: the fast-path deserialization of a canonical
frame into a `TraceV1` together with the subsequent `canonicalize`, both
defined in schema.rs, which is not under src/. Spec section 3 requires
the canonical shape to deserialize losslessly into a TraceRecord with
zero-valued defaults for absent fields, any structural failure being an
error (section 4.1); section 8 requires every emitted record to carry
`extensions["tap.raw"]`. Fields outside every claim (floats, message
lists, labels) are not modelled. -/
def traceV1Opt (v : Json) : Option TraceV1 :=
  (parseIds ((v.get "ids").getD (.obj []))).bind fun ids =>
  (getStrField v "event").bind fun event =>
  (getStrField v "timestamp").bind fun timestamp =>
  (parseContextJ ((v.get "context").getD (.obj []))).bind fun context =>
  (parseConfigurationJ ((v.get "configuration").getD (.obj []))).bind fun configuration =>
  (parseOutputsJ ((v.get "outputs").getD (.obj []))).bind fun outputs =>
  (parseMetricsJ ((v.get "metrics").getD (.obj []))).bind fun metrics =>
  (parseExtensions v).map fun extensions =>
  { event := event, timestamp := timestamp, ids := ids, context := context,
    configuration := configuration, outputs := outputs, metrics := metrics,
    extensions := extensions }

/-- Fast-path entry: a structural failure of the spec-modelled
deserialization is the mapping error of `from_tap_frame`. -/
def traceV1FromJson (v : Json) : Except Unit TraceV1 :=
  match traceV1Opt v with
  | some t => .ok t
  | none => .error ()

/-- Embedding of `from_tap_frame` (map.rs line 192): fast-path dispatch
when both `schema_version` and `ids` are present, legacy extraction
otherwise. -/
def from_tap_frame (fs : String → Option (List String)) (parse : String → Option Json)
    (v : Json) : Except Unit TraceV1 :=
  if fastPathApplies v then traceV1FromJson v
  else .ok (legacyRecord fs parse v)

/-- Outcome of one HTTP attempt, as classified by `send_batch` (main.rs
line 387): a `2xx` success, a `4xx` client error, or a retryable case
(`5xx` or transport error). -/
inductive Outcome where
  | success : Outcome
  | clientErr : Outcome
  | retryable : Outcome
deriving Repr, DecidableEq

/-- Result of `send_batch`: success, the terminal `4xx` error, or
exhaustion of the four attempts. -/
inductive SendRes where
  | ok : SendRes
  | err4xx : SendRes
  | exhausted : SendRes
deriving Repr, DecidableEq

/-- Embedding of the retry loop of `send_batch` (main.rs lines 385-403):
`for attempt in 0..4`, returning on a success or client error, sleeping
only when a retryable outcome occurs before the last attempt. The result
carries the number of HTTP attempts performed and the number of backoff
sleeps taken after the given attempt index. -/
def send_batch_go (resp : Nat → Outcome) (attempt : Nat) : SendRes × Nat × Nat :=
  if attempt < 4 then
    match resp attempt with
    | .success => (.ok, 1, 0)
    | .clientErr => (.err4xx, 1, 0)
    | .retryable =>
      let rest := send_batch_go resp (attempt + 1)
      if attempt < 3 then (rest.1, rest.2.1 + 1, rest.2.2 + 1)
      else (rest.1, rest.2.1 + 1, rest.2.2)
  else (.exhausted, 0, 0)
termination_by 4 - attempt

/-- Embedding of `send_batch` (main.rs line 359): an empty batch returns
success before any serialization or HTTP attempt; otherwise the retry
loop runs from attempt 0. The collector is modelled by the oracle `resp`
giving the outcome of each attempt. -/
def send_batch (events : List Json) (resp : Nat → Outcome) : SendRes × Nat × Nat :=
  if events.isEmpty then (.ok, 0, 0) else send_batch_go resp 0

/-- Embedding of the line loop of `flush_spool` (main.rs lines 552-564):
parseable lines accumulate into a batch, each full batch of 500 is sent
(propagating the first failure), and a final non-empty remainder is sent
last. The collector is modelled by the deterministic predicate `send`
(true = the POST succeeded); the result is the success flag together with
the number of POSTs performed. -/
def flush_lines (parse : String → Option Json) (send : List Json → Bool) :
    List String → List Json → Nat → Bool × Nat
  | [], batch, sends =>
    if batch.isEmpty then (true, sends)
    else if send batch then (true, sends + 1) else (false, sends)
  | line :: rest, batch, sends =>
    match parse line with
    | none => flush_lines parse send rest batch sends
    | some val =>
      let batch := batch ++ [val]
      if batch.length ≥ 500 then
        if send batch then flush_lines parse send rest [] (sends + 1)
        else (false, sends)
      else flush_lines parse send rest batch sends

/-- Embedding of `flush_spool` (main.rs lines 534-577) over the spool
file state, given as `none` when the file does not exist and `some lines`
otherwise. A missing file returns success untouched; otherwise the lines
are read and sent, and only after every send succeeded is the file
re-created at zero length (`File::create` then `sync_all`); the first
send failure returns the error with the file bytes intact. The result is
the flush outcome, the file state afterwards, and the number of POSTs. -/
def flush_spool (parse : String → Option Json) (send : List Json → Bool) :
    Option (List String) → (Except Unit Unit) × Option (List String) × Nat
  | none => (.ok (), none, 0)
  | some lines =>
    match flush_lines parse send lines [] 0 with
    | (true, sends) => (.ok (), some [], sends)
    | (false, sends) => (.error (), some lines, sends)

/-- Sub-batches of 500 that `flush_spool` sends, in order: groups of 500
consecutive parsed values with a final shorter group. -/
def chunks500 : List Json → List (List Json)
  | [] => []
  | x :: rest => ((x :: rest).take 500) :: chunks500 ((x :: rest).drop 500)
termination_by l => l.length
decreasing_by simp [List.length_drop]; omega

/-- Embedding of the line-retention step of `rotate_spool_file` (main.rs
lines 490-499): with `n` lines read back from `events.tmp`, the kept
lines are those from index `keep_from = n - n/2` on, written back as the
new spool file. -/
def rotate_keep (lines : List String) : List String :=
  lines.drop (lines.length - lines.length / 2)

/-- Family of legacy tap frames used for the numeric-coercion claims: a
frame whose pid, usage token counts, latency values, `top_k` and
`max_tokens` all carry the same integer `n`. -/
def numericFrame (n : Nat) : Json :=
  .obj
    [("env", .obj [("pid", .num (n : Int))]),
     ("payload", .obj
       [("usage", .obj
          [("prompt_tokens", .num (n : Int)),
           ("completion_tokens", .num (n : Int)),
           ("total_tokens", .num (n : Int))]),
        ("latency_ms", .obj
          [("first_token", .num (n : Int)),
           ("provider", .num (n : Int)),
           ("total", .num (n : Int))]),
        ("top_k", .num (n : Int)),
        ("max_tokens", .num (n : Int))])]

theorem chunks500_cons (l : List Json) (h : l ≠ []) :
    chunks500 l = l.take 500 :: chunks500 (l.drop 500) := by
  cases l with
  | nil => exact absurd rfl h
  | cons x rest => rw [chunks500]

theorem flush_lines_success_iff (parse : String → Option Json) (send : List Json → Bool) :
    ∀ (rest : List String) (batch : List Json) (sends : Nat), batch.length < 500 →
      (flush_lines parse send rest batch sends).1
        = (chunks500 (batch ++ rest.filterMap parse)).all send := by
  intro rest
  induction rest with
  | nil =>
    intro batch sends hlen
    by_cases hb : batch.isEmpty
    · have : batch = [] := List.isEmpty_iff.mp hb
      subst this
      simp [flush_lines, chunks500]
    · have hbne : batch ≠ [] := fun h => hb (by simp [h])
      rw [List.filterMap_nil, List.append_nil, chunks500_cons batch hbne,
        List.take_of_length_le (by omega), List.drop_of_length_le (by omega)]
      simp only [flush_lines, hb]
      cases hsend : send batch <;> simp [chunks500, hsend]
  | cons line rest ih =>
    intro batch sends hlen
    cases hp : parse line with
    | none => simpa [flush_lines, hp] using ih batch sends hlen
    | some val =>
      by_cases hfull : (batch ++ [val]).length ≥ 500
      · have hlen500 : (batch ++ [val]).length = 500 := by
          simp only [List.length_append, List.length_cons, List.length_nil] at hfull ⊢
          omega
        have hsplit : batch ++ val :: rest.filterMap parse
            = (batch ++ [val]) ++ rest.filterMap parse := by
          simp
        have htake : ((batch ++ [val]) ++ rest.filterMap parse).take 500 = batch ++ [val] := by
          rw [← hlen500]
          exact List.take_left _ _
        have hdrop : ((batch ++ [val]) ++ rest.filterMap parse).drop 500 = rest.filterMap parse := by
          rw [← hlen500]
          exact List.drop_left _ _
        have hchunks : chunks500 (batch ++ val :: rest.filterMap parse)
            = (batch ++ [val]) :: chunks500 (rest.filterMap parse) := by
          rw [hsplit, chunks500_cons _ (by simp), htake, hdrop]
        cases hsend : send (batch ++ [val]) with
        | true =>
          simp only [flush_lines, hp, if_pos hfull, hsend, eq_self_iff_true, if_true,
            List.filterMap_cons, hchunks]
          rw [ih [] (sends + 1) (by norm_num)]
          simp [hsend]
        | false =>
          simp only [flush_lines, hp, if_pos hfull, hsend, List.filterMap_cons, hchunks]
          simp [hsend]
      · have hlt : (batch ++ [val]).length < 500 := by omega
        have := ih (batch ++ [val]) sends hlt
        simp only [flush_lines, hp, if_neg hfull, List.filterMap_cons]
        rw [this]
        have : (batch ++ [val]) ++ rest.filterMap parse = batch ++ val :: rest.filterMap parse := by
          simp
        rw [this]

theorem flush_lines_all_unparsed (parse : String → Option Json) (send : List Json → Bool) :
    ∀ (lines : List String), (∀ l ∈ lines, parse l = none) →
      flush_lines parse send lines [] 0 = (true, 0) := by
  intro lines
  induction lines with
  | nil => intro _; simp [flush_lines]
  | cons l rest ih =>
    intro h
    have hl : parse l = none := h l (List.mem_cons_self l rest)
    simp only [flush_lines, hl]
    exact ih (fun x hx => h x (List.mem_cons_of_mem l hx))

/-- C3: on an existing spool file, a flush in which every sub-batch send
succeeds leaves the spool file zero-length; a flush in which any send
fails returns the error with the file contents identical to their
pre-flush state. Success is equivalent to every 500-line sub-batch of the
parseable lines being accepted by the collector. -/
theorem c3_flush_spool_file_state (parse : String → Option Json) (send : List Json → Bool)
    (lines : List String) :
    ((flush_spool parse send (some lines)).1 = .ok () →
        (flush_spool parse send (some lines)).2.1 = some []) ∧
    ((flush_spool parse send (some lines)).1 = .error () →
        (flush_spool parse send (some lines)).2.1 = some lines) ∧
    ((flush_spool parse send (some lines)).1 = .ok ()
        ↔ (chunks500 (lines.filterMap parse)).all send = true) := by
  have hkey := flush_lines_success_iff parse send lines [] 0 (by norm_num)
  simp only [List.nil_append] at hkey
  rcases hfl : flush_lines parse send lines [] 0 with ⟨success, sends⟩
  rw [hfl] at hkey
  simp only [flush_spool, hfl]
  cases success with
  | true => simp_all
  | false => simp_all

/-- Witness for C3 at a concrete flush: a single parseable line with an
accepting collector flushes to the empty file. -/
theorem c3_flush_spool_file_state_witness :
    (flush_spool (fun _ => some Json.null) (fun _ => true) (some ["x"])).2.1 = some [] := by
  have h := c3_flush_spool_file_state (fun _ => some Json.null) (fun _ => true) ["x"]
  exact h.1 (by rfl)

/-- C4 counterexample: a three-line spool file rotates to a single kept
line, not to the last `n - n/2 = 2` lines the claim describes. -/
theorem c4_keep_count_counterexample :
    rotate_keep ["a", "b", "c"] = ["c"] ∧
    (rotate_keep ["a", "b", "c"]).length ≠ 3 - 3 / 2 := by
  constructor
  · rfl
  · decide

/-- C4 (amended): rotation keeps a contiguous suffix, in order, of
exactly `⌊n/2⌋` lines (the first `keep_from = n - n/2` lines are
dropped), and that count lies in `[⌊n/2⌋, ⌈n/2⌉]`. -/
theorem c4_rotation_keeps_newest_half (lines : List String) :
    lines.take (lines.length - lines.length / 2) ++ rotate_keep lines = lines ∧
    (rotate_keep lines).length = lines.length / 2 ∧
    lines.length / 2 ≤ (lines.length + 1) / 2 := by
  refine ⟨List.take_append_drop _ lines, ?_, by omega⟩
  simp only [rotate_keep, List.length_drop]
  omega

theorem send_batch_go_after_retryables (resp : Nat → Outcome) :
    ∀ (k a : Nat), a + k < 4 → (∀ i, i < k → resp (a + i) = .retryable) →
      (resp (a + k) = .success → send_batch_go resp a = (.ok, k + 1, k)) ∧
      (resp (a + k) = .clientErr → send_batch_go resp a = (.err4xx, k + 1, k)) := by
  intro k
  induction k with
  | zero =>
    intro a ha _
    have ha4 : a < 4 := by omega
    rw [send_batch_go]
    constructor
    · intro hs
      simp only [Nat.add_zero] at hs
      simp [ha4, hs]
    · intro hs
      simp only [Nat.add_zero] at hs
      simp [ha4, hs]
  | succ k ih =>
    intro a ha hall
    have hra : resp a = .retryable := by
      have := hall 0 (by omega)
      simpa using this
    have hshift : ∀ i, i < k → resp (a + 1 + i) = .retryable := by
      intro i hi
      have := hall (i + 1) (by omega)
      have heq : a + (i + 1) = a + 1 + i := by omega
      rwa [heq] at this
    have hia := ih (a + 1) (by omega) hshift
    have heq : a + 1 + k = a + (k + 1) := by omega
    rw [heq] at hia
    have ha4 : a < 4 := by omega
    have ha3 : a < 3 := by omega
    constructor
    · intro hs
      rw [send_batch_go]
      simp only [if_pos ha4, hra, if_pos ha3, hia.1 hs]
    · intro hs
      rw [send_batch_go]
      simp only [if_pos ha4, hra, if_pos ha3, hia.2 hs]

theorem send_batch_go_all_retryable (resp : Nat → Outcome) :
    ∀ (n a : Nat), 4 - a ≤ n → (∀ i, a ≤ i → i < 4 → resp i = .retryable) →
      send_batch_go resp a = (.exhausted, 4 - a, 3 - a) := by
  intro n
  induction n with
  | zero =>
    intro a ha _
    rw [send_batch_go]
    have h4 : ¬ a < 4 := by omega
    simp only [if_neg h4]
    have h1 : 4 - a = 0 := by omega
    have h2 : 3 - a = 0 := by omega
    rw [h1, h2]
  | succ n ih =>
    intro a ha hall
    by_cases h4 : a < 4
    · have hra : resp a = .retryable := hall a (Nat.le_refl a) h4
      have hrest := ih (a + 1) (by omega) (fun i hi hi4 => hall i (by omega) hi4)
      rw [send_batch_go]
      simp only [if_pos h4, hra, hrest]
      by_cases h3 : a < 3
      · simp only [if_pos h3]
        have e1 : 4 - (a + 1) + 1 = 4 - a := by omega
        have e2 : 3 - (a + 1) + 1 = 3 - a := by omega
        rw [e1, e2]
      · simp only [if_neg h3]
        have e1 : 4 - (a + 1) + 1 = 4 - a := by omega
        have e2 : 3 - (a + 1) = 3 - a := by omega
        rw [e1, e2]
    · rw [send_batch_go]
      simp only [if_neg h4]
      have h1 : 4 - a = 0 := by omega
      have h2 : 3 - a = 0 := by omega
      rw [h1, h2]

theorem send_batch_go_attempts_le (resp : Nat → Outcome) :
    ∀ (n a : Nat), 4 - a ≤ n → (send_batch_go resp a).2.1 ≤ 4 - a := by
  intro n
  induction n with
  | zero =>
    intro a ha
    rw [send_batch_go]
    have h4 : ¬ a < 4 := by omega
    simp [h4]
  | succ n ih =>
    intro a ha
    rw [send_batch_go]
    by_cases h4 : a < 4
    · simp only [if_pos h4]
      cases resp a with
      | success => simp; omega
      | clientErr => simp; omega
      | retryable =>
        have := ih (a + 1) (by omega)
        by_cases h3 : a < 3 <;> simp only [if_pos, if_neg, h3] <;> simp <;> omega
    · simp [h4]

theorem send_batch_go_retry_only (resp : Nat → Outcome) :
    ∀ (n a k : Nat), 4 - a ≤ n → k + 1 < (send_batch_go resp a).2.1 →
      resp (a + k) = .retryable := by
  intro n
  induction n with
  | zero =>
    intro a k ha hk
    rw [send_batch_go] at hk
    have h4 : ¬ a < 4 := by omega
    simp [h4] at hk
  | succ n ih =>
    intro a k ha hk
    rw [send_batch_go] at hk
    by_cases h4 : a < 4
    · simp only [if_pos h4] at hk
      cases hra : resp a with
      | success => rw [hra] at hk; simp at hk
      | clientErr => rw [hra] at hk; simp at hk
      | retryable =>
        rw [hra] at hk
        cases k with
        | zero => simpa using hra
        | succ k =>
          have hrec : k + 1 < (send_batch_go resp (a + 1)).2.1 := by
            by_cases h3 : a < 3 <;> simp [h3] at hk <;> omega
          have := ih (a + 1) k (by omega) hrec
          have heq : a + 1 + k = a + (k + 1) := by omega
          rwa [heq] at this
    · simp [h4] at hk

/-- C5: for a non-empty batch, `send_batch` makes at most four HTTP
attempts; after any run of leading retryable outcomes (fewer than four),
a `2xx` returns success right there and a `4xx` returns the error right
there, with no attempt and no backoff sleep after it; an attempt is
followed by another one only when its outcome was retryable (`5xx` or
transport error); four retryable outcomes exhaust the retries with
exactly four attempts and three sleeps. -/
theorem c5_send_batch_retry_policy (events : List Json) (resp : Nat → Outcome)
    (hne : events ≠ []) :
    (send_batch events resp).2.1 ≤ 4 ∧
    (∀ k, k < 4 → (∀ i, i < k → resp i = .retryable) →
      (resp k = .success → send_batch events resp = (.ok, k + 1, k)) ∧
      (resp k = .clientErr → send_batch events resp = (.err4xx, k + 1, k))) ∧
    (∀ k, k + 1 < (send_batch events resp).2.1 → resp k = .retryable) ∧
    ((∀ i, i < 4 → resp i = .retryable) →
      send_batch events resp = (.exhausted, 4, 3)) := by
  have hi : events.isEmpty = false := by
    cases events with
    | nil => exact absurd rfl hne
    | cons x xs => rfl
  unfold send_batch
  rw [hi]
  simp only [Bool.false_eq_true, if_false]
  refine ⟨?_, ?_, ?_, ?_⟩
  · simpa using send_batch_go_attempts_le resp 4 0 (by omega)
  · intro k hk hall
    have := send_batch_go_after_retryables resp k 0 (by omega)
      (fun i hi => by simpa using hall i hi)
    simpa using this
  · intro k hk
    simpa using send_batch_go_retry_only resp 4 0 k (by omega) hk
  · intro hall
    simpa using send_batch_go_all_retryable resp 4 0 (by omega)
      (fun i _ hi4 => hall i hi4)

/-- Witness for C5: with a collector answering 400 on the first attempt,
`send_batch` of one event returns the client error after exactly one
attempt and zero sleeps. -/
theorem c5_send_batch_retry_policy_witness :
    send_batch [Json.null] (fun _ => Outcome.clientErr) = (.err4xx, 1, 0) := by
  have h := c5_send_batch_retry_policy [Json.null] (fun _ => Outcome.clientErr)
    (by simp)
  exact (h.2.1 0 (by omega) (fun i hi => absurd hi (by omega))).2 rfl

/-- C10: the empty batch is sent successfully with zero HTTP attempts and
zero sleeps, whatever the collector would answer; consequently a flush of
a spool file none of whose lines parse succeeds with zero POSTs and still
truncates the file to zero length. -/
theorem c10_empty_batch_no_requests :
    (∀ resp : Nat → Outcome, send_batch [] resp = (.ok, 0, 0)) ∧
    (∀ (parse : String → Option Json) (send : List Json → Bool) (lines : List String),
      (∀ l ∈ lines, parse l = none) →
      flush_spool parse send (some lines) = (.ok (), some [], 0)) := by
  constructor
  · intro resp
    rfl
  · intro parse send lines h
    have hfl := flush_lines_all_unparsed parse send lines h
    simp [flush_spool, hfl]

/-- Witness for C10: a flush over one unparseable line. -/
theorem c10_empty_batch_no_requests_witness :
    flush_spool (fun _ => none) (fun _ => true) (some ["not json"]) = (.ok (), some [], 0) := by
  exact c10_empty_batch_no_requests.2 (fun _ => none) (fun _ => true) ["not json"]
    (fun _ _ => rfl)

theorem lookup_insertField_self (fields : List (String × Json)) (k : String) (x : Json) :
    List.lookup k (insertField fields k x) = some x := by
  induction fields with
  | nil => simp [insertField, List.lookup]
  | cons p rest ih =>
    obtain ⟨k₀, v₀⟩ := p
    by_cases h : k₀ = k
    · subst h
      simp [insertField, List.lookup]
    · simp only [insertField, if_neg h, List.lookup]
      have : (k == k₀) = false := by
        simp [beq_iff_eq]
        exact fun hk => h hk.symm
      rw [this]
      exact ih

theorem lookup_insertField_ne (fields : List (String × Json)) (k q : String) (x : Json)
    (h : q ≠ k) : List.lookup q (insertField fields k x) = List.lookup q fields := by
  induction fields with
  | nil =>
    simp only [insertField, List.lookup]
    have : (q == k) = false := by simp [beq_iff_eq, h]
    rw [this]
  | cons p rest ih =>
    obtain ⟨k₀, v₀⟩ := p
    by_cases hk : k₀ = k
    · subst hk
      simp only [insertField, if_pos rfl, List.lookup]
      have : (q == k₀) = false := by simp [beq_iff_eq, h]
      rw [this]
    · simp only [insertField, if_neg hk, List.lookup]
      cases hq : q == k₀ with
      | true => rfl
      | false => exact ih

theorem json_get_insert_ne (j : Json) (k q : String) (x : Json) (h : q ≠ k) :
    (j.insert k x).get q = j.get q := by
  cases j with
  | obj fields => simpa [Json.insert, Json.get] using lookup_insertField_ne fields k q x h
  | null => rfl
  | bool b => rfl
  | num n => rfl
  | str s => rfl
  | arr xs => rfl

theorem json_get_insert_self (fields : List (String × Json)) (k : String) (x : Json) :
    ((Json.obj fields).insert k x).get k = some x := by
  simpa [Json.insert, Json.get] using lookup_insertField_self fields k x

theorem json_get_some_obj (j : Json) (k : String) (x : Json) (h : j.get k = some x) :
    ∃ fields, j = Json.obj fields := by
  cases j with
  | obj fields => exact ⟨fields, rfl⟩
  | null => simp [Json.get] at h
  | bool b => simp [Json.get] at h
  | num n => simp [Json.get] at h
  | str s => simp [Json.get] at h
  | arr xs => simp [Json.get] at h

theorem enrichModel_get_ne (payload msg : Json) (q : String) (h : q ≠ "model") :
    (enrichModel payload msg).get q = payload.get q := by
  unfold enrichModel
  cases msg.get "model" with
  | none => rfl
  | some model => exact json_get_insert_ne _ _ _ _ h

theorem enrichUsage_get_ne (payload msg : Json) (q : String) (h : q ≠ "usage") :
    (enrichUsage payload msg).get q = payload.get q := by
  unfold enrichUsage
  cases msg.get "usage" with
  | none => rfl
  | some usage => exact json_get_insert_ne _ _ _ _ h

theorem enrichFinish_get_ne (payload msg : Json) (q : String) (h : q ≠ "finish_reason") :
    (enrichFinish payload msg).get q = payload.get q := by
  unfold enrichFinish
  cases msg.get "stop_reason" with
  | none => rfl
  | some stop_reason => exact json_get_insert_ne _ _ _ _ h

theorem enrichTimestamp_of_present (payload latest_msg orig : Json)
    (h : payload.get "timestamp" = some orig) :
    enrichTimestamp payload latest_msg = payload := by
  unfold enrichTimestamp
  rw [h]
  rfl

theorem enrich_preserves_timestamp (payload m orig : Json)
    (h : payload.get "timestamp" = some orig) :
    (enrich_from_transcript payload m).get "timestamp" = some orig := by
  unfold enrich_from_transcript
  cases hm : m.get "message" with
  | none => exact h
  | some msg =>
    have h1 : (enrichModel payload msg).get "timestamp" = some orig := by
      rw [enrichModel_get_ne _ _ _ (by decide)]; exact h
    have h2 : (enrichUsage (enrichModel payload msg) msg).get "timestamp" = some orig := by
      rw [enrichUsage_get_ne _ _ _ (by decide)]; exact h1
    have h3 : (enrichFinish (enrichUsage (enrichModel payload msg) msg) msg).get "timestamp"
        = some orig := by
      rw [enrichFinish_get_ne _ _ _ (by decide)]; exact h2
    show (enrichTimestamp (enrichFinish (enrichUsage (enrichModel payload msg) msg) msg) m).get
        "timestamp" = some orig
    rw [enrichTimestamp_of_present _ _ _ h3]
    exact h3

theorem parseExtensions_tap_raw (v e : Json) (h : parseExtensions v = some e) :
    e.get "tap.raw" = some v := by
  unfold parseExtensions at h
  cases hv : v.get "extensions" with
  | none =>
    rw [hv] at h
    cases h
    exact json_get_insert_self [] _ _
  | some j =>
    rw [hv] at h
    cases j with
    | obj fields =>
      cases h
      exact json_get_insert_self fields _ _
    | null => cases h
    | bool b => cases h
    | num n => cases h
    | str s => cases h
    | arr xs => cases h

theorem traceV1Opt_extensions (v : Json) (t : TraceV1) (h : traceV1Opt v = some t) :
    t.extensions.get "tap.raw" = some v := by
  unfold traceV1Opt at h
  simp only [Option.bind_eq_some, Option.map_eq_some'] at h
  obtain ⟨ids, _, event, _, timestamp, _, context, _, configuration, _,
    outputs, _, metrics, _, extensions, hext, rfl⟩ := h
  exact parseExtensions_tap_raw v extensions hext

theorem legacyRecord_extensions (fs : String → Option (List String))
    (parse : String → Option Json) (v : Json) :
    (legacyRecord fs parse v).extensions = .obj [("tap.raw", tapPayload v)] := by
  unfold legacyRecord
  rfl

/-- C9: every parsed JSON value without both `schema_version` and `ids`
keys takes the legacy path of `from_tap_frame` and yields `Ok` with a
trace record; a mapping error is possible only on the fast path. -/
theorem c9_legacy_infallible (fs : String → Option (List String))
    (parse : String → Option Json) (v : Json) :
    (fastPathApplies v = false →
      from_tap_frame fs parse v = .ok (legacyRecord fs parse v)) ∧
    (∀ e, from_tap_frame fs parse v = .error e → fastPathApplies v = true) := by
  unfold from_tap_frame
  cases hf : fastPathApplies v with
  | false => simp
  | true =>
    refine ⟨fun h => by simp at h, fun e _ => rfl⟩

/-- Witness for C9 at a concrete legacy frame. -/
theorem c9_legacy_infallible_witness :
    from_tap_frame (fun _ => none) (fun _ => none) (Json.obj [("event", .str "ModelEnd")])
      = .ok (legacyRecord (fun _ => none) (fun _ => none)
          (Json.obj [("event", .str "ModelEnd")])) := by
  exact (c9_legacy_infallible _ _ _).1 rfl

/-- C7: on the legacy path the emitted record carries the same token
counts in `metrics` and in `outputs`, whether or not the payload carries
a `usage` object. -/
theorem c7_metrics_outputs_agree (fs : String → Option (List String))
    (parse : String → Option Json) (v : Json) (h : fastPathApplies v = false) :
    from_tap_frame fs parse v = .ok (legacyRecord fs parse v) ∧
    (legacyRecord fs parse v).metrics.prompt_tokens
      = (legacyRecord fs parse v).outputs.input_tokens ∧
    (legacyRecord fs parse v).metrics.completion_tokens
      = (legacyRecord fs parse v).outputs.output_tokens ∧
    (legacyRecord fs parse v).metrics.total_tokens
      = (legacyRecord fs parse v).outputs.total_tokens ∧
    (legacyRecord fs parse v).metrics.token_counts_estimated
      = (legacyRecord fs parse v).outputs.tokens_estimated := by
  refine ⟨by unfold from_tap_frame; rw [h]; rfl, ?_⟩
  unfold legacyRecord
  rcases hu : (enrichedPayload fs parse v).get "usage" with _ | u <;>
    rcases hl : (enrichedPayload fs parse v).get "latency_ms" with _ | l <;>
      simp [hu, hl]

/-- Witness for C7 at a concrete legacy frame carrying a usage object. -/
theorem c7_metrics_outputs_agree_witness :
    (legacyRecord (fun _ => none) (fun _ => none)
        (Json.obj [("payload", .obj [("usage", .obj [("prompt_tokens", .num 7)])])])).metrics.prompt_tokens
      = (legacyRecord (fun _ => none) (fun _ => none)
        (Json.obj [("payload", .obj [("usage", .obj [("prompt_tokens", .num 7)])])])).outputs.input_tokens := by
  exact (c7_metrics_outputs_agree (fun _ => none) (fun _ => none)
    (Json.obj [("payload", .obj [("usage", .obj [("prompt_tokens", .num 7)])])]) rfl).2.1

/-- C2: every record accepted by the mapper carries the original frame
payload under `extensions["tap.raw"]`: exactly the pre-enrichment payload
(the empty object when absent) on the legacy path, and the frame itself
on the (spec-modelled) fast path. -/
theorem c2_tap_raw_preserved (fs : String → Option (List String))
    (parse : String → Option Json) (v : Json) (t : TraceV1)
    (h : from_tap_frame fs parse v = .ok t) :
    (fastPathApplies v = true → t.extensions.get "tap.raw" = some v) ∧
    (fastPathApplies v = false →
      t.extensions = .obj [("tap.raw", tapPayload v)]) := by
  unfold from_tap_frame at h
  cases hf : fastPathApplies v with
  | true =>
    rw [hf] at h
    simp only [if_true] at h
    unfold traceV1FromJson at h
    refine ⟨fun _ => ?_, fun hfalse => Bool.noConfusion hfalse⟩
    cases hopt : traceV1Opt v with
    | none => rw [hopt] at h; cases h
    | some t0 =>
      rw [hopt] at h
      have h2 : (Except.ok t0 : Except Unit TraceV1) = Except.ok t := h
      injection h2 with h3
      subst h3
      exact traceV1Opt_extensions v t0 hopt
  | false =>
    rw [hf] at h
    simp only [Bool.false_eq_true, if_false, Except.ok.injEq] at h
    subst h
    exact ⟨fun htrue => Bool.noConfusion htrue,
      fun _ => legacyRecord_extensions fs parse v⟩

/-- Witness for C2 at a concrete legacy frame. -/
theorem c2_tap_raw_preserved_witness :
    (legacyRecord (fun _ => none) (fun _ => none)
        (Json.obj [("payload", .obj [("a", .num 1)])])).extensions
      = .obj [("tap.raw", tapPayload (Json.obj [("payload", .obj [("a", .num 1)])]))] := by
  exact (c2_tap_raw_preserved (fun _ => none) (fun _ => none)
    (Json.obj [("payload", .obj [("a", .num 1)])]) _ rfl).2 rfl

/-- C8: on the legacy path the record timestamp is the frame-level `ts`
when that is a non-empty string, else the (possibly enriched) payload
timestamp string, else empty; and enrichment never overwrites a payload
timestamp that was already present. -/
theorem c8_timestamp_cascade (fs : String → Option (List String))
    (parse : String → Option Json) (v : Json) (h : fastPathApplies v = false) :
    from_tap_frame fs parse v = .ok (legacyRecord fs parse v) ∧
    (tapTs v ≠ "" → (legacyRecord fs parse v).timestamp = tapTs v) ∧
    (tapTs v = "" → (legacyRecord fs parse v).timestamp
        = (((enrichedPayload fs parse v).get "timestamp").bind Json.as_str).getD "") ∧
    (∀ orig, (tapPayload v).get "timestamp" = some orig →
      (enrichedPayload fs parse v).get "timestamp" = some orig) := by
  refine ⟨by unfold from_tap_frame; rw [h]; rfl, ?_, ?_, ?_⟩
  · intro hts
    unfold legacyRecord
    rcases hu : (enrichedPayload fs parse v).get "usage" with _ | u <;>
      rcases hl : (enrichedPayload fs parse v).get "latency_ms" with _ | l <;>
        simp [hu, hl, hts]
  · intro hts
    unfold legacyRecord
    rcases hu : (enrichedPayload fs parse v).get "usage" with _ | u <;>
      rcases hl : (enrichedPayload fs parse v).get "latency_ms" with _ | l <;>
        simp [hu, hl, hts]
  · intro orig horig
    unfold enrichedPayload
    cases tapLatestMsg fs parse v with
    | none => exact horig
    | some m => exact enrich_preserves_timestamp _ m orig horig

theorem as_u32_sat_natCast (n : Nat) (h : n ≤ u64Max) :
    as_u32_sat (.num (n : Int)) = min n u32Max := by
  unfold as_u32_sat Json.as_u64
  have h0 : (0 : Int) ≤ (n : Int) := Int.natCast_nonneg n
  have hle : (n : Int) ≤ (u64Max : Int) := by exact_mod_cast h
  simp [h0, hle]

theorem as_i64_natCast (n : Nat) (h : n ≤ 9223372036854775807) :
    Json.as_i64 (.num (n : Int)) = some (n : Int) := by
  unfold Json.as_i64
  have hlo : i64Min ≤ (n : Int) :=
    le_trans (by norm_num [i64Min]) (Int.natCast_nonneg n)
  have hhi : (n : Int) ≤ i64Max := by unfold i64Max; exact_mod_cast h
  simp [hlo, hhi]

theorem i64_as_u32_natCast (n : Nat) : i64_as_u32 (n : Int) = n % 4294967296 := by
  unfold i64_as_u32
  omega

/-- C1 counterexample: in the legacy frame whose `top_k` is `2^32`, the
emitted record carries `configuration.top_k = 0` — the `as i64` plus
`as u32` conversion wraps modulo `2^32` instead of saturating to
`2^32 - 1` as the claim states for this field. -/
theorem c1_top_k_wraps_counterexample :
    from_tap_frame (fun _ => none) (fun _ => none) (numericFrame 4294967296)
      = .ok (legacyRecord (fun _ => none) (fun _ => none) (numericFrame 4294967296)) ∧
    (legacyRecord (fun _ => none) (fun _ => none)
        (numericFrame 4294967296)).configuration.top_k = 0 ∧
    (0 : Nat) ≠ u32Max := by
  refine ⟨rfl, ?_, by decide⟩
  have h : (legacyRecord (fun _ => none) (fun _ => none)
        (numericFrame 4294967296)).configuration.top_k
      = ((Json.as_i64 (.num ((4294967296 : Nat) : Int))).map i64_as_u32).getD 0 := rfl
  rw [h, as_i64_natCast 4294967296 (by norm_num), Option.map_some', i64_as_u32_natCast,
    Option.getD_some]

/-- C1 (amended): for a legacy frame carrying the integer `n` with
`2^32 - 1 < n ≤ i64::MAX` in all the cited positions, the fields
extracted through `as_u32_sat` — `context.pid`, the usage token counts
and the latency values — saturate to `2^32 - 1`, while
`configuration.top_k` and `configuration.max_tokens` instead go through
`as_i64` followed by a wrapping cast and come out as `n mod 2^32`. -/
theorem c1_saturating_and_wrapping_fields (fs : String → Option (List String))
    (parse : String → Option Json) (n : Nat)
    (h1 : u32Max < n) (h2 : n ≤ 9223372036854775807) :
    from_tap_frame fs parse (numericFrame n) = .ok (legacyRecord fs parse (numericFrame n)) ∧
    (legacyRecord fs parse (numericFrame n)).context.pid = u32Max ∧
    (legacyRecord fs parse (numericFrame n)).metrics.prompt_tokens = u32Max ∧
    (legacyRecord fs parse (numericFrame n)).metrics.completion_tokens = u32Max ∧
    (legacyRecord fs parse (numericFrame n)).metrics.total_tokens = u32Max ∧
    (legacyRecord fs parse (numericFrame n)).metrics.latency_ms.first_token = u32Max ∧
    (legacyRecord fs parse (numericFrame n)).metrics.latency_ms.provider = u32Max ∧
    (legacyRecord fs parse (numericFrame n)).metrics.latency_ms.total = u32Max ∧
    (legacyRecord fs parse (numericFrame n)).configuration.top_k = n % 4294967296 ∧
    (legacyRecord fs parse (numericFrame n)).configuration.max_tokens = n % 4294967296 := by
  have hn64 : n ≤ u64Max := le_trans h2 (by norm_num [u64Max])
  have hsat : as_u32_sat (.num (n : Int)) = u32Max := by
    rw [as_u32_sat_natCast n hn64]
    omega
  have hwrap : ((Json.as_i64 (.num ((n : Nat) : Int))).map i64_as_u32).getD 0
      = n % 4294967296 := by
    rw [as_i64_natCast n h2, Option.map_some', i64_as_u32_natCast, Option.getD_some]
  refine ⟨rfl, ?_, ?_, ?_, ?_, ?_, ?_, ?_, ?_, ?_⟩
  · show as_u32_sat (.num (n : Int)) = u32Max
    exact hsat
  · show as_u32_sat (.num (n : Int)) = u32Max
    exact hsat
  · show as_u32_sat (.num (n : Int)) = u32Max
    exact hsat
  · show as_u32_sat (.num (n : Int)) = u32Max
    exact hsat
  · show as_u32_sat (.num (n : Int)) = u32Max
    exact hsat
  · show as_u32_sat (.num (n : Int)) = u32Max
    exact hsat
  · show as_u32_sat (.num (n : Int)) = u32Max
    exact hsat
  · show ((Json.as_i64 (.num ((n : Nat) : Int))).map i64_as_u32).getD 0 = n % 4294967296
    exact hwrap
  · show ((Json.as_i64 (.num ((n : Nat) : Int))).map i64_as_u32).getD 0 = n % 4294967296
    exact hwrap

/-- Witness for C1 at `n = 2^32 + 1`: the pid saturates while `top_k`
comes out as 1. -/
theorem c1_saturating_and_wrapping_fields_witness :
    (legacyRecord (fun _ => none) (fun _ => none)
        (numericFrame 4294967297)).context.pid = u32Max ∧
    (legacyRecord (fun _ => none) (fun _ => none)
        (numericFrame 4294967297)).configuration.top_k = 4294967297 % 4294967296 := by
  have h := c1_saturating_and_wrapping_fields (fun _ => none) (fun _ => none) 4294967297
    (by norm_num [u32Max]) (by norm_num)
  exact ⟨h.2.1, h.2.2.2.2.2.2.2.2.1⟩

theorem getLast?_cons_getD (e : Json) (es : List Json) :
    (e :: es).getLast? = some (es.getLast?.getD e) := by
  induction es generalizing e with
  | nil => rfl
  | cons x xs ih =>
    simp only [List.getLast?_cons_cons, ih x, Option.getD_some]

theorem read_latest_step_eq (parse : String → Option Json) :
    ∀ (lines : List String) (acc : Option Json),
      List.foldl (fun latest line =>
        match parse line with
        | some entry => if isAssistantWithUsage entry then some entry else latest
        | none => latest) acc lines
      = (((lines.filterMap parse).filter isAssistantWithUsage).getLast?).elim acc some := by
  intro lines
  induction lines with
  | nil => intro acc; rfl
  | cons l rest ih =>
    intro acc
    rw [List.foldl_cons]
    cases hp : parse l with
    | none =>
      rw [ih]
      simp [hp]
    | some e =>
      cases hq : isAssistantWithUsage e with
      | false =>
        rw [ih]
        simp [hp, hq]
      | true =>
        rw [ih]
        simp only [hp, hq, List.filterMap_cons, List.filter_cons, if_true, if_pos]
        rw [getLast?_cons_getD]
        rcases hgl : ((rest.filterMap parse).filter isAssistantWithUsage).getLast? with _ | x <;>
          simp [hgl]

theorem as_u32_sat_add3 (a b c : Nat) (h : a + b + c ≤ u64Max) :
    as_u32_sat (Json.num ((a : Int) + b + c)) = min (a + b + c) u32Max := by
  have hc : ((a : Int) + b + c) = ((a + b + c : Nat) : Int) := by push_cast; ring
  rw [hc]
  exact as_u32_sat_natCast _ h

theorem as_u32_sat_add4 (a b c d : Nat) (h : a + b + c + d ≤ u64Max) :
    as_u32_sat (Json.num ((a : Int) + b + c + d)) = min (a + b + c + d) u32Max := by
  have hc : ((a : Int) + b + c + d) = ((a + b + c + d : Nat) : Int) := by push_cast; ring
  rw [hc]
  exact as_u32_sat_natCast _ h

theorem tapLatestMsg_transcript (fs : String → Option (List String))
    (parse : String → Option Json) (v : Json) (p : String) (lines : List String)
    (hpath : ((tapPayload v).get "transcript_path").bind Json.as_str = some p)
    (hfile : fs p = some lines) :
    tapLatestMsg fs parse v
      = ((lines.filterMap parse).filter isAssistantWithUsage).getLast? := by
  unfold tapLatestMsg
  rw [hpath]
  show read_latest_assistant_message fs parse p
      = ((lines.filterMap parse).filter isAssistantWithUsage).getLast?
  unfold read_latest_assistant_message
  rw [hfile]
  show List.foldl _ none lines = _
  rw [read_latest_step_eq parse lines none]
  rcases ((lines.filterMap parse).filter isAssistantWithUsage).getLast? with _ | x <;> rfl

theorem enrichTimestamp_get_ne (payload latest_msg : Json) (q : String)
    (h : q ≠ "timestamp") :
    (enrichTimestamp payload latest_msg).get q = payload.get q := by
  unfold enrichTimestamp
  cases hn : (payload.get "timestamp").isNone with
  | false => simp [hn]
  | true =>
    simp only [hn, if_true]
    rcases hl : latest_msg.get "timestamp" with _ | ts
    · simp [hl]
    · simp [hl, json_get_insert_ne _ _ _ _ h]

theorem enrichModel_obj (f : List (String × Json)) (msg : Json) :
    ∃ f2, enrichModel (.obj f) msg = .obj f2 := by
  unfold enrichModel
  cases msg.get "model" with
  | none => exact ⟨f, rfl⟩
  | some model => exact ⟨insertField f "model" model, rfl⟩

theorem enriched_get_usage (f : List (String × Json)) (e msg u : Json)
    (hmsg : e.get "message" = some msg)
    (husage : msg.get "usage" = some u) :
    (enrich_from_transcript (.obj f) e).get "usage" = some (aggregatedUsage u) := by
  unfold enrich_from_transcript
  rw [hmsg]
  show (enrichTimestamp (enrichFinish (enrichUsage (enrichModel (.obj f) msg) msg) msg) e).get
      "usage" = some (aggregatedUsage u)
  obtain ⟨f1, hf1⟩ := enrichModel_obj f msg
  have h1 : (enrichUsage (enrichModel (.obj f) msg) msg).get "usage"
      = some (aggregatedUsage u) := by
    unfold enrichUsage
    rw [husage]
    show ((enrichModel (.obj f) msg).insert "usage" (aggregatedUsage u)).get "usage" = _
    rw [hf1]
    exact json_get_insert_self f1 _ _
  rw [enrichTimestamp_get_ne _ _ _ (by decide),
    enrichFinish_get_ne _ _ _ (by decide), h1]

/-- C6 counterexample: a transcript whose latest assistant message has
`input_tokens = 2^32` yields `metrics.prompt_tokens = 2^32 - 1` (saturated
by `as_u32_sat` during extraction), not the sum `2^32` the claim
requires. -/
theorem c6_enrichment_saturation_counterexample :
    (legacyRecord
        (fun q => if q = "t" then some ["L"] else none)
        (fun s => if s = "L" then
            some (.obj [("type", .str "assistant"),
              ("message", .obj [("usage", .obj [("input_tokens", .num 4294967296)])])])
          else none)
        (.obj [("payload", .obj [("transcript_path", .str "t")])])).metrics.prompt_tokens
      = 4294967295 ∧
    (4294967295 : Nat) ≠ 4294967296 + 0 + 0 := by
  exact ⟨rfl, by decide⟩

/-- C6 (amended): for a legacy frame whose payload names a readable
transcript file, the enrichment source is the latest line with
`type == "assistant"` and `message.usage` present, and — provided the
u64 token sums do not overflow — the record carries
`metrics.prompt_tokens = min(input_tokens + cache_creation_input_tokens +
cache_read_input_tokens, 2^32-1)`, `metrics.completion_tokens =
min(output_tokens, 2^32-1)`, `metrics.total_tokens = min(prompt + completion,
2^32-1)` and `metrics.token_counts_estimated = false` (missing usage
subfields counted as 0); the saturation at `2^32-1` is forced by the
`as_u32_sat` extraction, so the unsaturated equalities of the claim hold
exactly whenever the sums stay below `2^32`. -/
theorem c6_transcript_enrichment (fs : String → Option (List String))
    (parse : String → Option Json) (v : Json) (p : String) (lines : List String)
    (e msg u : Json) (nIT nCC nCR nOT : Nat)
    (hfast : fastPathApplies v = false)
    (hpath : ((tapPayload v).get "transcript_path").bind Json.as_str = some p)
    (hfile : fs p = some lines)
    (hlast : ((lines.filterMap parse).filter isAssistantWithUsage).getLast? = some e)
    (hmsg : e.get "message" = some msg)
    (husage : msg.get "usage" = some u)
    (hIT : ((u.get "input_tokens").bind Json.as_u64).getD 0 = nIT)
    (hCC : ((u.get "cache_creation_input_tokens").bind Json.as_u64).getD 0 = nCC)
    (hCR : ((u.get "cache_read_input_tokens").bind Json.as_u64).getD 0 = nCR)
    (hOT : ((u.get "output_tokens").bind Json.as_u64).getD 0 = nOT)
    (hsum : nIT + nCC + nCR + nOT ≤ u64Max) :
    from_tap_frame fs parse v = .ok (legacyRecord fs parse v) ∧
    tapLatestMsg fs parse v = some e ∧
    (legacyRecord fs parse v).metrics.prompt_tokens = min (nIT + nCC + nCR) u32Max ∧
    (legacyRecord fs parse v).metrics.completion_tokens = min nOT u32Max ∧
    (legacyRecord fs parse v).metrics.total_tokens = min (nIT + nCC + nCR + nOT) u32Max ∧
    (legacyRecord fs parse v).metrics.token_counts_estimated = false := by
  have hlatest : tapLatestMsg fs parse v = some e := by
    rw [tapLatestMsg_transcript fs parse v p lines hpath hfile, hlast]
  obtain ⟨j, hj, _⟩ := Option.bind_eq_some.mp hpath
  obtain ⟨f, hf⟩ := json_get_some_obj _ _ _ hj
  have henr : (enrichedPayload fs parse v).get "usage" = some (aggregatedUsage u) := by
    unfold enrichedPayload
    rw [hlatest]
    show (enrich_from_transcript (tapPayload v) e).get "usage" = _
    rw [hf]
    exact enriched_get_usage f e msg u hmsg husage
  have hgp : (aggregatedUsage u).get "prompt_tokens"
      = some (.num (((((u.get "input_tokens").bind Json.as_u64).getD 0
          + ((u.get "cache_creation_input_tokens").bind Json.as_u64).getD 0
          + ((u.get "cache_read_input_tokens").bind Json.as_u64).getD 0)
            % (u64Max + 1) : Nat) : Int)) := rfl
  have hgc : (aggregatedUsage u).get "completion_tokens"
      = some (.num ((((u.get "output_tokens").bind Json.as_u64).getD 0 : Nat) : Int)) := rfl
  have hgt : (aggregatedUsage u).get "total_tokens"
      = some (.num (((((u.get "input_tokens").bind Json.as_u64).getD 0
          + ((u.get "cache_creation_input_tokens").bind Json.as_u64).getD 0
          + ((u.get "cache_read_input_tokens").bind Json.as_u64).getD 0
          + ((u.get "output_tokens").bind Json.as_u64).getD 0)
            % (u64Max + 1) : Nat) : Int)) := rfl
  have hge : (aggregatedUsage u).get "token_counts_estimated" = some (.bool false) := rfl
  rw [hIT, hCC, hCR] at hgp
  rw [hOT] at hgc
  rw [hIT, hCC, hCR, hOT] at hgt
  have hmod3 : (nIT + nCC + nCR) % (u64Max + 1) = nIT + nCC + nCR :=
    Nat.mod_eq_of_lt (by omega)
  have hmod4 : (nIT + nCC + nCR + nOT) % (u64Max + 1) = nIT + nCC + nCR + nOT :=
    Nat.mod_eq_of_lt (by omega)
  rw [hmod3] at hgp
  rw [hmod4] at hgt
  refine ⟨by unfold from_tap_frame; rw [hfast]; rfl, hlatest, ?_, ?_, ?_, ?_⟩ <;>
    · unfold legacyRecord
      rcases hl : (enrichedPayload fs parse v).get "latency_ms" with _ | l <;>
        simp [henr, hl, hgp, hgc, hgt, hge,
          as_u32_sat_natCast nOT (by omega : nOT ≤ u64Max),
          as_u32_sat_add3 nIT nCC nCR (by omega),
          as_u32_sat_add4 nIT nCC nCR nOT (by omega), Json.as_bool]

/-- Witness for C6 at a concrete transcript with `input_tokens = 100` and
`output_tokens = 50`. -/
theorem c6_transcript_enrichment_witness :
    tapLatestMsg
        (fun q => if q = "t" then some ["L"] else none)
        (fun s => if s = "L" then
            some (.obj [("type", .str "assistant"),
              ("message", .obj [("usage", .obj [("input_tokens", .num 100),
                ("output_tokens", .num 50)])])])
          else none)
        (.obj [("payload", .obj [("transcript_path", .str "t")])])
      = some (.obj [("type", .str "assistant"),
          ("message", .obj [("usage", .obj [("input_tokens", .num 100),
            ("output_tokens", .num 50)])])]) := by
  exact (c6_transcript_enrichment
    (fun q => if q = "t" then some ["L"] else none)
    (fun s => if s = "L" then
        some (.obj [("type", .str "assistant"),
          ("message", .obj [("usage", .obj [("input_tokens", .num 100),
            ("output_tokens", .num 50)])])])
      else none)
    (.obj [("payload", .obj [("transcript_path", .str "t")])])
    "t" ["L"]
    (.obj [("type", .str "assistant"),
      ("message", .obj [("usage", .obj [("input_tokens", .num 100),
        ("output_tokens", .num 50)])])])
    (.obj [("usage", .obj [("input_tokens", .num 100), ("output_tokens", .num 50)])])
    (.obj [("input_tokens", .num 100), ("output_tokens", .num 50)])
    100 0 0 50
    rfl rfl rfl rfl rfl rfl rfl rfl rfl rfl (by norm_num [u64Max])).2.1

/-- Witness for C8 at a concrete legacy frame with a frame-level `ts`. -/
theorem c8_timestamp_cascade_witness :
    (legacyRecord (fun _ => none) (fun _ => none)
        (Json.obj [("ts", .str "2025-11-13T10:30:00Z")])).timestamp
      = tapTs (Json.obj [("ts", .str "2025-11-13T10:30:00Z")]) := by
  exact (c8_timestamp_cascade (fun _ => none) (fun _ => none)
    (Json.obj [("ts", .str "2025-11-13T10:30:00Z")]) rfl).2.1 (by decide)

end Talon
